import Mathlib

/-!
Verification development for the pinterest-board-downloader repository.

The Python sources (`download_images.py`, `ui/window.py`) are shallowly
embedded below: strings are `List Char`, Python `set`s are duplicate-free
lists in insertion order, the `defaultdict` mapping is an association list
in insertion order, HTTP fetching is an oracle function, and the browser
page observed by the scroll loop is a function from iteration index to the
observations the loop makes (img elements, marker query result, page
height).  Library calls (`hashlib.md5`, `urllib.parse.urlparse`,
`os.path.splitext`, `os.path.join`, `float`, `str.strip`, `str.split`,
`re.match` against the one fixed pattern) are modelled by executable Lean
definitions of the corresponding algorithms.
-/

namespace PinBoard

/-- Strings of the embedded program are lists of characters. -/
abbrev Str := List Char

/-- Characters treated as whitespace by Python `str.strip()`. -/
def pyIsSpace (c : Char) : Bool :=
  c = ' ' || c = '\t' || c = '\n' || c = '\x0d' || c = '\x0b' || c = '\x0c'

/-- Longest prefix of `s` whose characters all fail `p`; the rest is dropped. -/
def takeUntil (p : Char → Bool) : Str → Str
  | [] => []
  | c :: cs => if p c then [] else c :: takeUntil p cs

/-- Model of Python `str.split(sep)` for a one-character separator:
splits at every occurrence, keeping empty pieces. -/
def splitOnChar (sep : Char) : Str → List Str
  | [] => [[]]
  | c :: cs =>
    if c = sep then [] :: splitOnChar sep cs
    else
      match splitOnChar sep cs with
      | [] => [[c]]
      | piece :: rest => (c :: piece) :: rest

/-- Model of Python `str.strip()`: removes leading and trailing whitespace. -/
def stripStr (s : Str) : Str :=
  ((s.dropWhile pyIsSpace).reverse.dropWhile pyIsSpace).reverse

/-- Model of Python `str.strip(chars)` for the single character `c`. -/
def stripChar (c : Char) (s : Str) : Str :=
  ((s.dropWhile (· = c)).reverse.dropWhile (· = c)).reverse

/-- Model of Python `url.startswith("http")`. -/
def startsWithHttp (s : Str) : Bool :=
  "http".data.isPrefixOf s

/-- Model of Python `s.endswith('x')` via the last character. -/
def endsWithChar (c : Char) (s : Str) : Bool :=
  s.getLast? = some c

/-- Numeric value of a list of decimal digit characters, most significant first. -/
def digitsVal (ds : Str) : Nat :=
  ds.foldl (fun acc d => acc * 10 + (d.toNat - 48)) 0

/-- Model of Python `float(s)` restricted to finite decimal literals
(optional surrounding whitespace, optional sign, integer and fractional
digits, optional decimal exponent); the value is represented exactly as a
rational.  Inputs outside this grammar (including `inf`/`nan` spellings)
are mapped to `none`, the model of `ValueError`. -/
def parseFloat (s : Str) : Option ℚ :=
  let s := stripStr s
  let signAndRest : ℚ × Str :=
    match s with
    | '+' :: t => (1, t)
    | '-' :: t => (-1, t)
    | t => (1, t)
  let sign := signAndRest.1
  let t := signAndRest.2
  let ip := t.takeWhile Char.isDigit
  let rest := t.dropWhile Char.isDigit
  let mantAndRest : Option (ℚ × Str) :=
    match rest with
    | '.' :: rest2 =>
      let fp := rest2.takeWhile Char.isDigit
      let rest3 := rest2.dropWhile Char.isDigit
      if ip = [] ∧ fp = [] then none
      else some ((digitsVal ip : ℚ) + (digitsVal fp : ℚ) / (10 : ℚ) ^ fp.length, rest3)
    | _ => if ip = [] then none else some ((digitsVal ip : ℚ), rest)
  match mantAndRest with
  | none => none
  | some (mant, rest) =>
    match rest with
    | [] => some (sign * mant)
    | e :: es =>
      if e = 'e' ∨ e = 'E' then
        let expSignAndRest : Int × Str :=
          match es with
          | '+' :: t2 => (1, t2)
          | '-' :: t2 => (-1, t2)
          | t2 => (1, t2)
        let ds := expSignAndRest.2
        if ds ≠ [] ∧ ds.all Char.isDigit then
          some (sign * mant * (10 : ℚ) ^ (expSignAndRest.1 * (digitsVal ds : Int)))
        else none
      else none

/-! ## MD5 (model of `hashlib.md5(...).hexdigest()`) -/

/-- UTF-8 encoding of one character, as byte values. -/
def utf8Bytes (c : Char) : List Nat :=
  let n := c.toNat
  if n < 128 then [n]
  else if n < 2048 then [192 + n / 64, 128 + n % 64]
  else if n < 65536 then [224 + n / 4096, 128 + n / 64 % 64, 128 + n % 64]
  else [240 + n / 262144, 128 + n / 4096 % 64, 128 + n / 64 % 64, 128 + n % 64]

/-- Model of Python `s.encode('utf-8')`. -/
def utf8Encode (s : Str) : List Nat :=
  s.foldr (fun c acc => utf8Bytes c ++ acc) []

/-- Running MD5 state: four 32-bit words. -/
structure MD5State where
  a : Nat
  b : Nat
  c : Nat
  d : Nat

/-- The 2^32 modulus for 32-bit arithmetic. -/
def m32 : Nat := 4294967296

/-- Bitwise complement within 32 bits (arguments are kept below 2^32). -/
def not32 (x : Nat) : Nat := 4294967295 - x % m32

/-- Left rotation of a 32-bit word by `n` places. -/
def rotl32 (x n : Nat) : Nat :=
  ((x <<< n) % m32) ||| (x >>> (32 - n))

/-- The 64 MD5 sine-derived constants of RFC 1321. -/
def md5K : List Nat :=
  [0xd76aa478, 0xe8c7b756, 0x242070db, 0xc1bdceee,
   0xf57c0faf, 0x4787c62a, 0xa8304613, 0xfd469501,
   0x698098d8, 0x8b44f7af, 0xffff5bb1, 0x895cd7be,
   0x6b901122, 0xfd987193, 0xa679438e, 0x49b40821,
   0xf61e2562, 0xc040b340, 0x265e5a51, 0xe9b6c7aa,
   0xd62f105d, 0x02441453, 0xd8a1e681, 0xe7d3fbc8,
   0x21e1cde6, 0xc33707d6, 0xf4d50d87, 0x455a14ed,
   0xa9e3e905, 0xfcefa3f8, 0x676f02d9, 0x8d2a4c8a,
   0xfffa3942, 0x8771f681, 0x6d9d6122, 0xfde5380c,
   0xa4beea44, 0x4bdecfa9, 0xf6bb4b60, 0xbebfbc70,
   0x289b7ec6, 0xeaa127fa, 0xd4ef3085, 0x04881d05,
   0xd9d4d039, 0xe6db99e5, 0x1fa27cf8, 0xc4ac5665,
   0xf4292244, 0x432aff97, 0xab9423a7, 0xfc93a039,
   0x655b59c3, 0x8f0ccc92, 0xffeff47d, 0x85845dd1,
   0x6fa87e4f, 0xfe2ce6e0, 0xa3014314, 0x4e0811a1,
   0xf7537e82, 0xbd3af235, 0x2ad7d2bb, 0xeb86d391]

/-- The 64 MD5 per-round left-rotation amounts. -/
def md5S : List Nat :=
  [7, 12, 17, 22, 7, 12, 17, 22, 7, 12, 17, 22, 7, 12, 17, 22,
   5, 9, 14, 20, 5, 9, 14, 20, 5, 9, 14, 20, 5, 9, 14, 20,
   4, 11, 16, 23, 4, 11, 16, 23, 4, 11, 16, 23, 4, 11, 16, 23,
   6, 10, 15, 21, 6, 10, 15, 21, 6, 10, 15, 21, 6, 10, 15, 21]

/-- The MD5 nonlinear function for round `i`. -/
def md5F (i b c d : Nat) : Nat :=
  if i < 16 then (b &&& c) ||| (not32 b &&& d)
  else if i < 32 then (d &&& b) ||| (not32 d &&& c)
  else if i < 48 then b ^^^ c ^^^ d
  else c ^^^ (b ||| not32 d)

/-- The message-word index used in round `i`. -/
def md5G (i : Nat) : Nat :=
  if i < 16 then i
  else if i < 32 then (5 * i + 1) % 16
  else if i < 48 then (3 * i + 5) % 16
  else (7 * i) % 16

/-- Little-endian 32-bit word `j` of a 64-byte block. -/
def md5WordAt (block : List Nat) (j : Nat) : Nat :=
  block.getD (4 * j) 0 + 256 * block.getD (4 * j + 1) 0 +
    65536 * block.getD (4 * j + 2) 0 + 16777216 * block.getD (4 * j + 3) 0

/-- One MD5 round applied to the running state. -/
def md5Step (M : Nat → Nat) (st : MD5State) (i : Nat) : MD5State :=
  let f := md5F i st.b st.c st.d
  let tmp := (st.a + f + md5K.getD i 0 + M (md5G i)) % m32
  let nb := (st.b + rotl32 tmp (md5S.getD i 0)) % m32
  ⟨st.d, nb, st.b, st.c⟩

/-- MD5 compression of one 64-byte block into the chaining state. -/
def md5Compress (st : MD5State) (block : List Nat) : MD5State :=
  let M := md5WordAt block
  let e := (List.range 64).foldl (md5Step M) st
  ⟨(st.a + e.a) % m32, (st.b + e.b) % m32, (st.c + e.c) % m32, (st.d + e.d) % m32⟩

/-- MD5 padding: a 0x80 byte, zeros to 56 mod 64, then the bit length in
64-bit little-endian form. -/
def md5Pad (msg : List Nat) : List Nat :=
  let len := msg.length
  let zeros := (120 - (len + 1) % 64) % 64
  msg ++ [128] ++ List.replicate zeros 0 ++
    (List.range 8).map (fun i => len * 8 / 2 ^ (8 * i) % 256)

/-- Folds the compression function over consecutive 64-byte blocks; the
fuel argument (instantiated with the message length) makes the recursion
structural. -/
def md5Loop (fuel : Nat) (msg : List Nat) (st : MD5State) : MD5State :=
  match fuel with
  | 0 => st
  | fuel + 1 =>
    match msg with
    | [] => st
    | _ :: _ => md5Loop fuel (msg.drop 64) (md5Compress st (msg.take 64))

/-- The four bytes of a 32-bit word, little-endian. -/
def wordBytes (x : Nat) : List Nat :=
  [x % 256, x / 256 % 256, x / 65536 % 256, x / 16777216 % 256]

/-- The 16-byte MD5 digest of a string's UTF-8 encoding. -/
def md5Digest (s : Str) : List Nat :=
  let p := md5Pad (utf8Encode s)
  let st := md5Loop p.length p ⟨1732584193, 4023233417, 2562383102, 271733878⟩
  wordBytes st.a ++ wordBytes st.b ++ wordBytes st.c ++ wordBytes st.d

/-- Lower-case hexadecimal digit for a value below 16. -/
def hexChar (n : Nat) : Char :=
  if n < 10 then Char.ofNat (48 + n) else Char.ofNat (87 + n)

/-- Lower-case hexadecimal rendering of a byte list, two digits per byte. -/
def hexOfBytes (bs : List Nat) : Str :=
  bs.foldr (fun b acc => hexChar (b / 16) :: hexChar (b % 16) :: acc) []

/-- Model of Python `hashlib.md5(s.encode('utf-8')).hexdigest()`. -/
def md5hex (s : Str) : Str :=
  hexOfBytes (md5Digest s)

/-! ## urlparse (model of `urllib.parse.urlparse` components used) -/

/-- Characters allowed inside a URL scheme. -/
def isSchemeChar (c : Char) : Bool :=
  c.isAlphanum || c = '+' || c = '-' || c = '.'

/-- Splits a string at the first occurrence of `c`, when present. -/
def splitFirst (c : Char) : Str → Option (Str × Str)
  | [] => none
  | x :: xs =>
    if x = c then some ([], xs)
    else (splitFirst c xs).map (fun p => (x :: p.1, p.2))

/-- Whether a candidate scheme is valid: nonempty, starts with a letter,
all characters scheme characters. -/
def validScheme (s : Str) : Bool :=
  match s with
  | [] => false
  | c :: cs => c.isAlpha && (c :: cs).all isSchemeChar

/-- Removes a leading `scheme:` when present and valid. -/
def dropScheme (s : Str) : Str :=
  match splitFirst ':' s with
  | some (sch, rest) => if validScheme sch then rest else s
  | none => s

/-- Model of `urlparse(url).path`: the fragment and query are cut off, a
valid `scheme:` is removed, and when the remainder starts with `//` the
netloc up to the next `/` is removed as well. -/
def urlparsePath (url : Str) : Str :=
  let s := takeUntil (· = '#') url
  let s := takeUntil (· = '?') s
  let s := dropScheme s
  match s with
  | '/' :: '/' :: rest => rest.dropWhile (· ≠ '/')
  | _ => s

/-- Model of `urlparse(url).netloc`: the authority between `//` and the
next `/`, empty when the URL has no `//` part. -/
def urlparseNetloc (url : Str) : Str :=
  let s := takeUntil (· = '#') url
  let s := takeUntil (· = '?') s
  let s := dropScheme s
  match s with
  | '/' :: '/' :: rest => rest.takeWhile (· ≠ '/')
  | _ => []

/-- Image identifier used by the collector:
`hashlib.md5(urlparse(url).path.encode('utf-8')).hexdigest()`. -/
def imgId (url : Str) : Str :=
  md5hex (urlparsePath url)

/-! ## sanitize_filename -/

/-- The basename of a path: everything after the last `/`. -/
def basenameOf (p : Str) : Str :=
  (p.reverse.takeWhile (· ≠ '/')).reverse

/-- Model of `os.path.splitext(p)[1]`: the extension starts at the last
dot of the basename, except that a basename consisting only of leading
dots before that position has no extension. -/
def splitextExt (p : Str) : Str :=
  let b := basenameOf p
  let rb := b.reverse
  let afterDot := rb.takeWhile (· ≠ '.')
  if afterDot.length = rb.length then []
  else
    let pre := (rb.drop (afterDot.length + 1)).reverse
    if pre.all (· = '.') then [] else '.' :: afterDot.reverse

/-- Model of `sanitize_filename(url, quality=None)` from
`download_images.py`: md5 of the full URL, optional `_quality` tag, and
the URL-path extension with `.jpg` substituted when the extension is
empty or longer than five characters. -/
def sanitizeFilename (url : Str) (quality : Option Str) : Str :=
  let hashDigest := md5hex url
  let ext0 := splitextExt (urlparsePath url)
  let ext := if ext0 = [] ∨ 5 < ext0.length then ".jpg".data else ext0
  match quality with
  | some q => if q = [] then hashDigest ++ ext else hashDigest ++ '_' :: q ++ ext
  | none => hashDigest ++ ext

/-- Model of `os.path.join(dir, f)` for the cases arising here. -/
def joinPath (dir f : Str) : Str :=
  if f.headD ' ' = '/' then f
  else if dir = [] then f
  else if dir.getLast? = some '/' then dir ++ f
  else dir ++ '/' :: f

/-! ## The collector's mapping -/

/-- The per-identifier record: the two quality-tier URL sets, modelled as
duplicate-free lists in insertion order. -/
structure ImgUrls where
  high : List Str
  low : List Str
deriving DecidableEq, Repr

/-- The collector's `defaultdict` mapping from identifier to tier sets,
modelled as an association list in insertion order. -/
abbrev ImgMap := List (Str × ImgUrls)

/-- Inserts `u` into a set modelled as a duplicate-free list. -/
def setAdd (s : List Str) (u : Str) : List Str :=
  if u ∈ s then s else s ++ [u]

/-- Adds a URL to the low set of identifier `k`, creating the entry like
the `defaultdict` does when it is absent. -/
def addUrlLow (m : ImgMap) (k u : Str) : ImgMap :=
  match m with
  | [] => [(k, ⟨[], [u]⟩)]
  | (k', e) :: rest =>
    if k' = k then (k', ⟨e.high, setAdd e.low u⟩) :: rest
    else (k', e) :: addUrlLow rest k u

/-- Adds a URL to the high set of identifier `k`. -/
def addUrlHigh (m : ImgMap) (k u : Str) : ImgMap :=
  match m with
  | [] => [(k, ⟨[u], []⟩)]
  | (k', e) :: rest =>
    if k' = k then (k', ⟨setAdd e.high u, e.low⟩) :: rest
    else (k', e) :: addUrlHigh rest k u

/-- The high set stored under identifier `k` (empty when absent). -/
def mapHigh (m : ImgMap) (k : Str) : List Str :=
  match m with
  | [] => []
  | (k', e) :: rest => if k' = k then e.high else mapHigh rest k

/-- The low set stored under identifier `k` (empty when absent). -/
def mapLow (m : ImgMap) (k : Str) : List Str :=
  match m with
  | [] => []
  | (k', e) :: rest => if k' = k then e.low else mapLow rest k

/-- All URLs appearing in some high set of the mapping, in order. -/
def allHighUrls (m : ImgMap) : List Str :=
  m.foldr (fun p acc => p.2.high ++ acc) []

/-- All URLs appearing in some low set of the mapping, in order. -/
def allLowUrls (m : ImgMap) : List Str :=
  m.foldr (fun p acc => p.2.low ++ acc) []

/-! ## The element scan of scroll_and_collect -/

/-- One `<img>` element as observed by the scan: its ancestors' attribute
lists, three staleness switches for the points where the driver can raise
`StaleElementReferenceException`, and the two attributes read. -/
structure Elem where
  ancestors : List (List (Str × Str))
  staleAncestorQuery : Bool
  staleSrc : Bool
  staleSrcset : Bool
  src : Option Str
  srcset : Option Str

/-- The marker attribute of the excluded section. -/
def markerAttr : Str × Str :=
  ("data-test-id".data, "more-ideas-container".data)

/-- Result of the xpath query
`ancestor::*[@data-test-id='more-ideas-container']`: the ancestors
carrying the marker attribute. -/
def markerAncestors (e : Elem) : List (List (Str × Str)) :=
  e.ancestors.filter (fun attrs => markerAttr ∈ attrs)

/-- One step of the srcset entry loop, carrying the mapping, the highest
density seen so far, and its URL. -/
def srcsetStep (acc : ImgMap × ℚ × Option Str) (entry : Str) : ImgMap × ℚ × Option Str :=
  let m := acc.1
  let best := acc.2.1
  let bestUrl := acc.2.2
  let parts := splitOnChar ' ' (stripStr entry)
  let url := parts.headD []
  if ¬ startsWithHttp url then acc
  else
    match parts with
    | _ :: d :: _ =>
      if endsWithChar 'x' d then
        match parseFloat d.dropLast with
        | some density =>
          if best < density then (m, density, some url) else acc
        | none => (addUrlLow m (imgId url) url, best, bestUrl)
      else (addUrlLow m (imgId url) url, best, bestUrl)
    | _ => (addUrlLow m (imgId url) url, best, bestUrl)

/-- Processing of one srcset attribute value: low-tier URLs are added as
they are met, and the single highest-density URL is added to the high set
afterwards. -/
def processSrcset (m : ImgMap) (s : Str) : ImgMap :=
  let r := (splitOnChar ',' s).foldl srcsetStep (m, 0, none)
  match r.2.2 with
  | some u => addUrlHigh r.1 (imgId u) u
  | none => r.1

/-- Processing of one `<img>` element: skip on staleness or an excluded
ancestor, otherwise add the `src` URL to the low set and classify the
srcset entries. -/
def processElem (m : ImgMap) (e : Elem) : ImgMap :=
  if e.staleAncestorQuery then m
  else if ¬ (markerAncestors e).isEmpty then m
  else if e.staleSrc then m
  else
    let m1 :=
      match e.src with
      | some s => if startsWithHttp s then addUrlLow m (imgId s) s else m
      | none => m
    if e.staleSrcset then m1
    else
      match e.srcset with
      | some ss => if ss = [] then m1 else processSrcset m1 ss
      | none => m1

/-! ## The scroll loop -/

/-- What one iteration of the scroll loop observes on the page: the img
elements enumerated, the result of the page-wide marker query (already
truthiness-collapsed, with a query failure counting as absent), and the
page height read at the end of the iteration. -/
structure IterObs where
  imgs : List Elem
  marker : Bool
  height : Nat

/-- Processing of all elements of one iteration. -/
def processIter (m : ImgMap) (it : IterObs) : ImgMap :=
  it.imgs.foldl processElem m

/-- The scroll loop, with fuel making the possibly endless `while True`
loop a total function: `none` means the fuel ran out before either stop
condition held. -/
def collectRun (obs : Nat → IterObs) : Nat → Nat → Nat → ImgMap → Option ImgMap
  | 0, _, _, _ => none
  | fuel + 1, i, lastH, m =>
    let it := obs i
    let m1 := processIter m it
    if it.marker then some m1
    else if it.height = lastH then some m1
    else collectRun obs fuel (i + 1) it.height m1

/-- Model of `scroll_and_collect`: the loop starts with an empty mapping
and the initially observed page height `h0`. -/
def scrollAndCollect (obs : Nat → IterObs) (h0 fuel : Nat) : Option ImgMap :=
  collectRun obs fuel 0 h0 []

/-- The `last_height` value the loop holds entering iteration `i`. -/
def prevHeight (obs : Nat → IterObs) (h0 : Nat) : Nat → Nat
  | 0 => h0
  | i + 1 => (obs i).height

/-- The two terminal conditions at iteration `i`: the marker query finds
the excluded section, or the page height matches the previous one. -/
def stopsAt (obs : Nat → IterObs) (h0 i : Nat) : Prop :=
  (obs i).marker = true ∨ (obs i).height = prevHeight obs h0 i

/-- The mapping accumulated by processing `k` iterations starting at
iteration `i` from mapping `m`. -/
def collectFrom (obs : Nat → IterObs) (m : ImgMap) (i : Nat) : Nat → ImgMap
  | 0 => m
  | k + 1 => collectFrom obs (processIter m (obs i)) (i + 1) k

/-! ## The downloader -/

/-- One line printed by the download loop. -/
inductive LogEntry where
  | failed (url : Str)
  | downloaded (url : Str) (path : Str) (quality : Str)
deriving DecidableEq, Repr

/-- The observable outcome of a downloader run: files written (path and
bytes, in order), the HTTP GETs attempted (in order), the lines printed,
and the two counters of the summary line. -/
structure DlResult where
  writes : List (Str × List Nat)
  attempts : List Str
  log : List LogEntry
  downloaded : Nat
  skipped : Nat
deriving DecidableEq, Repr

/-- The result of doing nothing. -/
def emptyR : DlResult := ⟨[], [], [], 0, 0⟩

/-- Sequential composition of downloader outcomes. -/
def combineR (r1 r2 : DlResult) : DlResult :=
  ⟨r1.writes ++ r2.writes, r1.attempts ++ r2.attempts, r1.log ++ r2.log,
   r1.downloaded + r2.downloaded, r1.skipped + r2.skipped⟩

/-- Folds a list of outcomes into one. -/
def combineRs (l : List DlResult) : DlResult :=
  l.foldr combineR emptyR

/-- The `urls_to_download` selection of `download_images` for one
identifier: the arbitrary pick from a Python set is modelled as the head
of the insertion-ordered list. -/
def selectUrls (pref : Str) (q : ImgUrls) : List (Str × Str) :=
  if pref = "high-only".data then
    match q.high with
    | u :: _ => [(u, "high".data)]
    | [] => []
  else if pref = "prioritize-high".data then
    match q.high with
    | u :: _ => [(u, "high".data)]
    | [] =>
      match q.low with
      | u :: _ => [(u, "low".data)]
      | [] => []
  else if pref = "all".data then
    (match q.high with
     | u :: _ => [(u, "high".data)]
     | [] => []) ++
    (match q.low with
     | u :: _ => [(u, "low".data)]
     | [] => [])
  else []

/-- One HTTP GET and file write; `fetch` returns the body bytes or `none`
for any timeout, non-2xx status or transport error, whose handler prints
the failure and moves on. -/
def fetchOne (dir pref : Str) (fetch : Str → Option (List Nat)) (p : Str × Str) : DlResult :=
  match fetch p.1 with
  | none => ⟨[], [p.1], [LogEntry.failed p.1], 0, 0⟩
  | some bytes =>
    let fname :=
      if pref = "all".data then sanitizeFilename p.1 (some p.2)
      else sanitizeFilename p.1 none
    let path := joinPath dir fname
    ⟨[(path, bytes)], [p.1], [LogEntry.downloaded p.1 path p.2], 1, 0⟩

/-- The body of the per-identifier loop of `download_images`: an empty
selection under one of the three known preferences counts the identifier
as skipped, otherwise each selected URL is fetched once. -/
def perId (dir pref : Str) (fetch : Str → Option (List Nat)) (entry : Str × ImgUrls) : DlResult :=
  let sel := selectUrls pref entry.2
  if (pref = "high-only".data ∨ pref = "prioritize-high".data ∨ pref = "all".data) ∧ sel = [] then
    ⟨[], [], [], 0, 1⟩
  else combineRs (sel.map (fetchOne dir pref fetch))

/-- Model of `download_images(image_dict, output_dir, quality_pref)`. -/
def downloadRun (m : ImgMap) (dir pref : Str) (fetch : Str → Option (List Nat)) : DlResult :=
  combineRs (m.map (perId dir pref fetch))

/-- The set of files present after performing a list of writes over an
existing set of files: written paths are created or overwritten. -/
def fsAfter (fs : Finset Str) (writes : List (Str × List Nat)) : Finset Str :=
  fs ∪ (writes.map Prod.fst).toFinset

/-! ## The UI's profile/board extraction -/

/-- Matches `pinterest\.com/([^/]+)/([^/]+)/?` against `s` and returns
the two groups. -/
def matchAfterHost (s : Str) : Option (Str × Str) :=
  match "pinterest.com/".data.isPrefixOf s with
  | false => none
  | true =>
    let rest := s.drop 14
    let g2 := rest.takeWhile (· ≠ '/')
    let rest2 := rest.dropWhile (· ≠ '/')
    if g2 = [] then none
    else
      match rest2 with
      | '/' :: rest3 =>
        let g3 := rest3.takeWhile (· ≠ '/')
        if g3 = [] then none else some (g2, g3)
      | _ => none

/-- Whether `c` is a lowercase ASCII letter, as the character class
`[a-z]` of the pattern. -/
def isLowerAZ (c : Char) : Bool :=
  'a' ≤ c && c ≤ 'z'

/-- The `[a-z]{2}\.` alternative of the host-prefix group, followed by
the group-absent alternative. -/
def matchHostTwoLetter (s : Str) : Option (Str × Str) :=
  match s with
  | a :: b :: '.' :: rest =>
    if isLowerAZ a && isLowerAZ b then
      match matchAfterHost rest with
      | some g => some g
      | none => matchAfterHost s
    else matchAfterHost s
  | _ => matchAfterHost s

/-- Matches the optional host-prefix group `(www\.|[a-z]{2}\.)?` followed
by the host and path groups, trying the alternatives in the regex engine's
order. -/
def matchHostGroups (s : Str) : Option (Str × Str) :=
  match s with
  | 'w' :: 'w' :: 'w' :: '.' :: rest =>
    match matchAfterHost rest with
    | some g => some g
    | none => matchHostTwoLetter s
  | _ => matchHostTwoLetter s

/-- Model of
`re.match(r"https?://(www\.|[a-z]{2}\.)?pinterest\.com/([^/]+)/([^/]+)/?", url)`,
returning groups 2 and 3 on success. -/
def matchPinterest (url : Str) : Option (Str × Str) :=
  match url with
  | 'h' :: 't' :: 't' :: 'p' :: rest =>
    match rest with
    | 's' :: ':' :: '/' :: '/' :: r => matchHostGroups r
    | ':' :: '/' :: '/' :: r => matchHostGroups r
    | _ => none
  | _ => none

/-- The nonempty segments of `urlparse(url).path.strip('/').split('/')`. -/
def pathParts (url : Str) : List Str :=
  (splitOnChar '/' (stripChar '/' (urlparsePath url))).filter (· ≠ [])

/-- Model of `extract_profile_and_board_or_fallback` from `ui/window.py`:
the Pinterest pattern first, then path segments, then the second-to-last
domain label, and on the `IndexError` of a short domain the final
`('unknown', md5(url)[:12])` fallback. -/
def extractProfileAndBoardOrFallback (url : Str) : Str × Str :=
  match matchPinterest url with
  | some g => g
  | none =>
    let parts := pathParts url
    let nl := splitOnChar '.' (urlparseNetloc url)
    match parts with
    | p0 :: p1 :: _ => (p0, p1)
    | [p0] =>
      if 2 ≤ nl.length then (nl.getD (nl.length - 2) [], p0)
      else ("unknown".data, (md5hex url).take 12)
    | [] =>
      if 2 ≤ nl.length then (nl.getD (nl.length - 2) [], (md5hex url).take 12)
      else ("unknown".data, (md5hex url).take 12)

/-! ## Concrete instances used by witnesses -/

/-- An element with a marker-carrying ancestor and both attributes set. -/
def elemMarked : Elem :=
  ⟨[[markerAttr]], false, false, false, some "http://h/s.png".data,
    some "http://h/s.png 2x".data⟩

/-- An element whose srcset lists one URL both bare and with density 2x. -/
def elemC6 : Elem :=
  ⟨[], false, false, false, none, some "http://h/u, http://h/u 2x".data⟩

/-- A one-iteration page whose marker query succeeds immediately. -/
def obsC6 : Nat → IterObs := fun _ => ⟨[elemC6], true, 5⟩

/-- A page whose height grows forever and whose marker never appears. -/
def obsNoStop : Nat → IterObs := fun i => ⟨[], false, i + 1⟩

/-- A page whose marker query succeeds on iteration 1. -/
def obsStop : Nat → IterObs := fun i => ⟨[], decide (i = 1), 100 + i⟩

/-- A fetch oracle that fails on every URL. -/
def fetchFail : Str → Option (List Nat) := fun _ => none

/-- A fetch oracle that succeeds on every URL with a fixed body. -/
def fetchSome : Str → Option (List Nat) := fun _ => some [0]

/-- A fetch oracle failing on exactly one URL. -/
def fetchC8 : Str → Option (List Nat) :=
  fun s => if s = "http://h/fail.png".data then none else some [7]

/-! ## Helper lemmas -/

theorem takeUntil_eq_self (p : Char → Bool) (s : Str) (h : ∀ c ∈ s, p c = false) :
    takeUntil p s = s := by
  induction s with
  | nil => rfl
  | cons c cs ih =>
    have hc : p c = false := h c (List.mem_cons_self c cs)
    simp only [takeUntil, hc, Bool.false_eq_true, if_false]
    rw [ih (fun x hx => h x (List.mem_cons_of_mem _ hx))]

theorem takeUntil_append_not_any (p : Char → Bool) (xs ys : Str)
    (h : ∀ c ∈ xs, p c = false) :
    takeUntil p (xs ++ ys) = xs ++ takeUntil p ys := by
  induction xs with
  | nil => rfl
  | cons c cs ih =>
    have hc : p c = false := h c (List.mem_cons_self c cs)
    simp only [List.cons_append, takeUntil, hc, Bool.false_eq_true, if_false,
      List.append_eq]
    rw [ih (fun x hx => h x (List.mem_cons_of_mem _ hx))]

theorem takeUntil_append_mem (p : Char → Bool) (xs ys : Str)
    (h : ∃ c ∈ xs, p c = true) :
    takeUntil p (xs ++ ys) = takeUntil p xs := by
  induction xs with
  | nil => obtain ⟨c, hc, -⟩ := h; exact absurd hc (List.not_mem_nil c)
  | cons c cs ih =>
    by_cases hc : p c = true
    · simp [takeUntil, hc]
    · obtain ⟨x, hx, hpx⟩ := h
      rcases List.mem_cons.mp hx with rfl | hx'
      · exact absurd hpx hc
      · simp only [List.cons_append, takeUntil, List.append_eq]
        rw [if_neg hc, if_neg hc, ih ⟨x, hx', hpx⟩]

theorem stripQueryFragment_append (pre q : Str) :
    takeUntil (· = '?') (takeUntil (· = '#') (pre ++ '?' :: q)) =
      takeUntil (· = '?') (takeUntil (· = '#') pre) := by
  by_cases h1 : '#' ∈ pre
  · rw [takeUntil_append_mem _ _ _ ⟨'#', h1, by simp⟩]
  · have h1' : ∀ c ∈ pre, decide (c = '#') = false := by
      intro c hc
      simp only [decide_eq_false_iff_not]
      rintro rfl
      exact h1 hc
    rw [takeUntil_append_not_any _ _ _ h1', takeUntil_eq_self _ _ h1']
    have hq : takeUntil (· = '#') ('?' :: q) = '?' :: takeUntil (· = '#') q := by
      simp [takeUntil]
    rw [hq]
    by_cases h2 : '?' ∈ pre
    · rw [takeUntil_append_mem _ _ _ ⟨'?', h2, by simp⟩]
    · have h2' : ∀ c ∈ pre, decide (c = '?') = false := by
        intro c hc
        simp only [decide_eq_false_iff_not]
        rintro rfl
        exact h2 hc
      rw [takeUntil_append_not_any _ _ _ h2', takeUntil_eq_self _ _ h2']
      simp [takeUntil]

theorem urlparsePath_append_query (pre q : Str) :
    urlparsePath (pre ++ '?' :: q) = urlparsePath pre := by
  simp only [urlparsePath]
  rw [stripQueryFragment_append]

theorem http_shape (u : Str) (hu : startsWithHttp u = true) :
    ∃ t, u = 'h' :: 't' :: 't' :: 'p' :: t := by
  have hp : "http".data <+: u := by
    have := List.isPrefixOf_iff_prefix.mp hu
    exact this
  obtain ⟨t, ht⟩ := hp
  exact ⟨t, ht.symm⟩

theorem stripStr_eq_self (s : Str)
    (h1 : ∀ c, s.head? = some c → pyIsSpace c = false)
    (h2 : ∀ c, s.getLast? = some c → pyIsSpace c = false) :
    stripStr s = s := by
  cases s with
  | nil => rfl
  | cons c t =>
    have hd : pyIsSpace c = false := h1 c rfl
    unfold stripStr
    rw [List.dropWhile_cons_of_neg (by simp [hd])]
    rcases hr : (c :: t).reverse with - | ⟨d, r⟩
    · exact absurd hr (by simp)
    · have hdr : (c :: t).getLast? = some d := by
        rw [← List.head?_reverse, hr]
        rfl
      have hld : pyIsSpace d = false := h2 d hdr
      have h3 : List.dropWhile pyIsSpace (d :: r) = d :: r :=
        List.dropWhile_cons_of_neg (by simp [hld])
      rw [h3, ← hr, List.reverse_reverse]

theorem stripStr_cons_space (s : Str) : stripStr (' ' :: s) = stripStr s := by
  unfold stripStr
  rw [List.dropWhile_cons_of_pos (by decide)]

theorem splitOnChar_not_mem (sep : Char) (xs : Str) (h : sep ∉ xs) :
    splitOnChar sep xs = [xs] := by
  induction xs with
  | nil => rfl
  | cons c cs ih =>
    have hc : ¬ c = sep := fun hcs => h (hcs ▸ List.mem_cons_self c cs)
    have ihr := ih (fun hm => h (List.mem_cons_of_mem _ hm))
    simp only [splitOnChar, if_neg hc, ihr]

theorem splitOnChar_append (sep : Char) (xs ys : Str) (h : sep ∉ xs) :
    splitOnChar sep (xs ++ sep :: ys) = xs :: splitOnChar sep ys := by
  induction xs with
  | nil => simp [splitOnChar]
  | cons c cs ih =>
    have hc : ¬ c = sep := fun hcs => h (hcs ▸ List.mem_cons_self c cs)
    have ihr : splitOnChar sep (cs.append (sep :: ys)) = cs :: splitOnChar sep ys :=
      ih (fun hm => h (List.mem_cons_of_mem _ hm))
    simp only [List.cons_append, splitOnChar, if_neg hc, ihr]

theorem parseFloat_one : parseFloat "1".data = some 1 := by
  have hstrip : stripStr "1".data = "1".data := by decide
  have htw : List.takeWhile Char.isDigit "1".data = "1".data := by decide
  have hdw : List.dropWhile Char.isDigit "1".data = [] := by decide
  have hdv : digitsVal "1".data = 1 := by decide
  simp [parseFloat, hstrip, htw, hdw, hdv]

theorem parseFloat_two : parseFloat "2".data = some 2 := by
  have hstrip : stripStr "2".data = "2".data := by decide
  have htw : List.takeWhile Char.isDigit "2".data = "2".data := by decide
  have hdw : List.dropWhile Char.isDigit "2".data = [] := by decide
  have hdv : digitsVal "2".data = 2 := by decide
  simp [parseFloat, hstrip, htw, hdw, hdv]

theorem space_not_mem_of_no_ws (u : Str) (hws : ∀ c ∈ u, pyIsSpace c = false) :
    ' ' ∉ u := by
  intro hm
  have := hws ' ' hm
  simp [pyIsSpace] at this

theorem srcsetStep_space (acc : ImgMap × ℚ × Option Str) (e : Str) :
    srcsetStep acc (' ' :: e) = srcsetStep acc e := by
  unfold srcsetStep
  rw [stripStr_cons_space]

theorem srcsetStep_density (acc : ImgMap × ℚ × Option Str) (u dtok : Str) (v : ℚ)
    (hu : startsWithHttp u = true)
    (hws : ∀ c ∈ u, pyIsSpace c = false)
    (hx : dtok.getLast? = some 'x')
    (hdn : ' ' ∉ dtok)
    (hv : parseFloat dtok.dropLast = some v) :
    srcsetStep acc (u ++ ' ' :: dtok) =
      if acc.2.1 < v then (acc.1, v, some u) else acc := by
  obtain ⟨t, ht⟩ := http_shape u hu
  have hdne : dtok ≠ [] := by
    rintro rfl
    simp at hx
  have hstrip : stripStr (u ++ ' ' :: dtok) = u ++ ' ' :: dtok := by
    apply stripStr_eq_self
    · intro c0 hc0
      rw [ht] at hc0
      simp at hc0
      rw [← hc0]
      decide
    · intro c0 hc0
      have hgl : (u ++ ' ' :: dtok).getLast? = some 'x' := by
        rw [List.getLast?_append]
        have h3 : (' ' :: dtok).getLast? = dtok.getLast?.or ([' '] : Str).getLast? :=
          @List.getLast?_append Char [' '] dtok
        rw [h3, hx]
        rfl
      rw [hgl] at hc0
      injection hc0 with h4
      rw [← h4]
      decide
  have hsw : ' ' ∉ u := space_not_mem_of_no_ws u hws
  have hsplit : splitOnChar ' ' (u ++ ' ' :: dtok) = [u, dtok] := by
    rw [splitOnChar_append _ _ _ hsw, splitOnChar_not_mem _ _ hdn]
  have hex : endsWithChar 'x' dtok = true := by
    simp [endsWithChar, hx]
  simp only [srcsetStep, hstrip, hsplit, List.headD_cons, hu, Bool.not_true,
    Bool.false_eq_true, if_false, hex, if_true, hv, not_true]

theorem srcsetStep_nodensity (acc : ImgMap × ℚ × Option Str) (u : Str)
    (hu : startsWithHttp u = true)
    (hws : ∀ c ∈ u, pyIsSpace c = false) :
    srcsetStep acc u = (addUrlLow acc.1 (imgId u) u, acc.2.1, acc.2.2) := by
  have hstrip : stripStr u = u := by
    apply stripStr_eq_self
    · intro c0 hc0
      exact hws c0 (List.mem_of_mem_head? hc0)
    · intro c0 hc0
      exact hws c0 (List.mem_of_mem_getLast? hc0)
  have hsw : ' ' ∉ u := space_not_mem_of_no_ws u hws
  have hsplit : splitOnChar ' ' u = [u] := splitOnChar_not_mem _ _ hsw
  simp only [srcsetStep, hstrip, hsplit, List.headD_cons, hu, Bool.not_true,
    Bool.false_eq_true, if_false, not_true]

theorem processSrcset_abc (m : ImgMap) (a b c : Str)
    (ha : startsWithHttp a = true) (hb : startsWithHttp b = true)
    (hc : startsWithHttp c = true)
    (haw : ∀ ch ∈ a, pyIsSpace ch = false) (hbw : ∀ ch ∈ b, pyIsSpace ch = false)
    (hcw : ∀ ch ∈ c, pyIsSpace ch = false)
    (hac : ',' ∉ a) (hbc : ',' ∉ b) (hcc : ',' ∉ c) :
    processSrcset m (a ++ " 1x, ".data ++ b ++ " 2x, ".data ++ c) =
      addUrlHigh (addUrlLow m (imgId c) c) (imgId b) b := by
  have h1 : ',' ∉ a ++ [' ', '1', 'x'] := by
    intro hmem
    rcases List.mem_append.mp hmem with h | h
    · exact hac h
    · revert h
      decide
  have h2 : ',' ∉ ' ' :: (b ++ [' ', '2', 'x']) := by
    intro hmem
    rcases List.mem_cons.mp hmem with h | h
    · exact absurd h (by decide)
    · rcases List.mem_append.mp h with h' | h'
      · exact hbc h'
      · revert h'
        decide
  have h3 : ',' ∉ ' ' :: c := by
    intro hmem
    rcases List.mem_cons.mp hmem with h | h
    · exact absurd h (by decide)
    · exact hcc h
  have hsplit : splitOnChar ','
      (a ++ " 1x, ".data ++ b ++ " 2x, ".data ++ c) =
      [a ++ [' ', '1', 'x'], ' ' :: (b ++ [' ', '2', 'x']), ' ' :: c] := by
    have hrearr : a ++ " 1x, ".data ++ b ++ " 2x, ".data ++ c =
        (a ++ [' ', '1', 'x']) ++
          ',' :: ((' ' :: (b ++ [' ', '2', 'x'])) ++ ',' :: (' ' :: c)) := by
      simp
    rw [hrearr, splitOnChar_append _ _ _ h1, splitOnChar_append _ _ _ h2,
      splitOnChar_not_mem _ _ h3]
  have hv1 : parseFloat (['1', 'x'] : Str).dropLast = some 1 := by
    have h : (['1', 'x'] : Str).dropLast = "1".data := by decide
    rw [h]
    exact parseFloat_one
  have hv2 : parseFloat (['2', 'x'] : Str).dropLast = some 2 := by
    have h : (['2', 'x'] : Str).dropLast = "2".data := by decide
    rw [h]
    exact parseFloat_two
  simp only [processSrcset, hsplit, List.foldl_cons, List.foldl_nil]
  rw [srcsetStep_space, srcsetStep_space]
  rw [srcsetStep_density _ a ['1', 'x'] 1 ha haw (by decide) (by decide) hv1]
  rw [if_pos (show ((m, (0 : ℚ), (none : Option Str)).2.1 < (1 : ℚ)) by norm_num)]
  rw [srcsetStep_density _ b ['2', 'x'] 2 hb hbw (by decide) (by decide) hv2]
  rw [if_pos (show (((m, (0 : ℚ), (none : Option Str)).1, (1 : ℚ),
    (some a : Option Str)).2.1 < (2 : ℚ)) by norm_num)]
  rw [srcsetStep_nodensity _ c hc hcw]

theorem processSrcset_dup (m : ImgMap) (u : Str)
    (hu : startsWithHttp u = true)
    (hws : ∀ ch ∈ u, pyIsSpace ch = false)
    (hcm : ',' ∉ u) :
    processSrcset m (u ++ ", ".data ++ u ++ " 2x".data) =
      addUrlHigh (addUrlLow m (imgId u) u) (imgId u) u := by
  have h2 : ',' ∉ ' ' :: (u ++ [' ', '2', 'x']) := by
    intro hmem
    rcases List.mem_cons.mp hmem with h | h
    · exact absurd h (by decide)
    · rcases List.mem_append.mp h with h' | h'
      · exact hcm h'
      · revert h'
        decide
  have hsplit : splitOnChar ',' (u ++ ", ".data ++ u ++ " 2x".data) =
      [u, ' ' :: (u ++ [' ', '2', 'x'])] := by
    have hrearr : u ++ ", ".data ++ u ++ " 2x".data =
        u ++ ',' :: (' ' :: (u ++ [' ', '2', 'x'])) := by
      simp
    rw [hrearr, splitOnChar_append _ _ _ hcm, splitOnChar_not_mem _ _ h2]
  have hv2 : parseFloat (['2', 'x'] : Str).dropLast = some 2 := by
    have h : (['2', 'x'] : Str).dropLast = "2".data := by decide
    rw [h]
    exact parseFloat_two
  simp only [processSrcset, hsplit, List.foldl_cons, List.foldl_nil]
  rw [srcsetStep_space]
  rw [srcsetStep_nodensity _ u hu hws]
  rw [srcsetStep_density _ u ['2', 'x'] 2 hu hws (by decide) (by decide) hv2]
  rw [if_pos (show ((addUrlLow m (imgId u) u, ((m, (0 : ℚ), (none : Option Str)).2.1),
    ((m, (0 : ℚ), (none : Option Str)).2.2)).2.1 < (2 : ℚ)) by norm_num)]

theorem processElem_srcset_only (m : ImgMap) (s : Str) (hs : s ≠ []) :
    processElem m ⟨[], false, false, false, none, some s⟩ = processSrcset m s := by
  simp [processElem, markerAncestors, hs]

/-! ## Claims -/

/-- C2: the identifier a collected URL is stored under is the MD5 hash of
the URL's path component only, so it depends only on that path; in
particular two URLs differing only in their query string (a common prefix
before `?`, arbitrary query tails) receive the same identifier. -/
theorem claim_C2_identifier_path_only :
    (∀ u1 u2 : Str, urlparsePath u1 = urlparsePath u2 → imgId u1 = imgId u2) ∧
    (∀ pre q1 q2 : Str, imgId (pre ++ '?' :: q1) = imgId (pre ++ '?' :: q2)) := by
  constructor
  · intro u1 u2 h
    unfold imgId
    rw [h]
  · intro pre q1 q2
    unfold imgId
    rw [urlparsePath_append_query, urlparsePath_append_query]

theorem claim_C2_witness :
    urlparsePath "http://a/p?x=1".data = urlparsePath "http://a/p?x=2".data ∧
    imgId "http://a/p?x=1".data = imgId "http://a/p?x=2".data :=
  ⟨by decide, claim_C2_identifier_path_only.1 _ _ (by decide)⟩

/-- C4: an image element with an ancestor carrying the excluded-section
marker attribute contributes nothing to the mapping, whatever its own
src/srcset attributes are. -/
theorem claim_C4_excluded_ancestor_skipped (m : ImgMap) (e : Elem)
    (h : markerAncestors e ≠ []) : processElem m e = m := by
  unfold processElem
  by_cases hs : e.staleAncestorQuery
  · simp [hs]
  · simp [hs, List.isEmpty_iff, h]

theorem claim_C4_witness :
    markerAncestors elemMarked ≠ [] ∧ processElem [] elemMarked = [] :=
  ⟨by decide, claim_C4_excluded_ancestor_skipped [] elemMarked (by decide)⟩

/-- C9: a second Downloader run with the same mapping, directory, policy
and fetch outcomes produces the same writes (the model is a function of
those inputs), and applying its writes to the file set left by the first
run creates no path that the first run did not already create. -/
theorem claim_C9_rerun_idempotent (m : ImgMap) (dir pref : Str)
    (fetch : Str → Option (List Nat)) (fs : Finset Str) :
    fsAfter (fsAfter fs (downloadRun m dir pref fetch).writes)
        (downloadRun m dir pref fetch).writes =
      fsAfter fs (downloadRun m dir pref fetch).writes := by
  unfold fsAfter
  rw [Finset.union_assoc, Finset.union_self]

/-- C10: the fallback extractor is a total function of the URL string, and
when the Pinterest pattern does not match, the path has at most one
nonempty segment and the netloc has fewer than two dot-separated labels
(the case where Python's negative indexing raises and is caught), it
returns the pair `('unknown', md5(url)[:12])`. -/
theorem claim_C10_fallback_total (url : Str)
    (hm : matchPinterest url = none)
    (hp : (pathParts url).length ≤ 1)
    (hn : (splitOnChar '.' (urlparseNetloc url)).length < 2) :
    extractProfileAndBoardOrFallback url =
      ("unknown".data, (md5hex url).take 12) := by
  have hn2 : ¬ 2 ≤ (splitOnChar '.' (urlparseNetloc url)).length := by omega
  simp only [extractProfileAndBoardOrFallback, hm]
  rcases hpp : pathParts url with - | ⟨p0, - | ⟨p1, t⟩⟩
  · simp [hn2]
  · simp [hn2]
  · rw [hpp] at hp
    simp at hp

theorem claim_C10_witness :
    matchPinterest "foo".data = none ∧
    (pathParts "foo".data).length ≤ 1 ∧
    (splitOnChar '.' (urlparseNetloc "foo".data)).length < 2 ∧
    extractProfileAndBoardOrFallback "foo".data =
      ("unknown".data, (md5hex "foo".data).take 12) :=
  ⟨by decide, by decide, by decide,
    claim_C10_fallback_total "foo".data (by decide) (by decide) (by decide)⟩

/-- C5 (amended): the produced filename is the MD5 hex digest of the full
URL, then the `_quality` tag when a nonempty quality is given, then the
extension taken from the URL path, with `.jpg` substituted exactly when
that extension is absent or longer than five characters including the
dot. -/
theorem claim_C5_extension_threshold (url : Str) (q : Str) (hq : q ≠ []) :
    sanitizeFilename url none =
      md5hex url ++
        (if splitextExt (urlparsePath url) = [] ∨ 5 < (splitextExt (urlparsePath url)).length
         then ".jpg".data else splitextExt (urlparsePath url)) ∧
    sanitizeFilename url (some q) =
      md5hex url ++ '_' :: q ++
        (if splitextExt (urlparsePath url) = [] ∨ 5 < (splitextExt (urlparsePath url)).length
         then ".jpg".data else splitextExt (urlparsePath url)) := by
  constructor
  · rfl
  · simp [sanitizeFilename, hq]

theorem claim_C5_witness :
    ("high".data ≠ ([] : Str)) ∧
    sanitizeFilename "http://x/a.png".data (some "high".data) =
      md5hex "http://x/a.png".data ++ '_' :: "high".data ++
        (if splitextExt (urlparsePath "http://x/a.png".data) = [] ∨
            5 < (splitextExt (urlparsePath "http://x/a.png".data)).length
         then ".jpg".data else splitextExt (urlparsePath "http://x/a.png".data)) :=
  ⟨by decide, (claim_C5_extension_threshold "http://x/a.png".data "high".data (by decide)).2⟩

/-- C5 (counterexample): for the URL `http://x/a.jpeg` the extension
`.jpeg` is longer than 4 characters including the dot, yet the code keeps
it (the code's threshold is length greater than 5, not 4), so the
filename is not the `.jpg`-substituted one the claim requires. -/
theorem claim_C5_counterexample :
    4 < (splitextExt (urlparsePath "http://x/a.jpeg".data)).length ∧
    sanitizeFilename "http://x/a.jpeg".data none =
      md5hex "http://x/a.jpeg".data ++ ".jpeg".data ∧
    sanitizeFilename "http://x/a.jpeg".data none ≠
      md5hex "http://x/a.jpeg".data ++ ".jpg".data := by
  have h : splitextExt (urlparsePath "http://x/a.jpeg".data) = ".jpeg".data := by decide
  refine ⟨by decide, by simp [sanitizeFilename, h], ?_⟩
  simp [sanitizeFilename, h]

theorem collectRun_marker_first (obs : Nat → IterObs) (h0 : Nat) (m : ImgMap)
    (fuel : Nat) (hm : (obs 0).marker = true) :
    collectRun obs (fuel + 1) 0 h0 m = some (processIter m (obs 0)) := by
  simp [collectRun, hm]

/-- C1: processing an element whose srcset is the entry list
`a 1x, b 2x, c` (with `a`, `b`, `c` distinct whitespace- and comma-free
HTTP URLs) yields `b` as the only high-tier URL, `c` as the only low-tier
URL, and `a` nowhere: the no-density entry goes low, and only the single
highest-density URL is promoted to high. -/
theorem claim_C1_srcset_classification (a b c : Str)
    (ha : startsWithHttp a = true) (hb : startsWithHttp b = true)
    (hc : startsWithHttp c = true)
    (haw : ∀ ch ∈ a, pyIsSpace ch = false) (hbw : ∀ ch ∈ b, pyIsSpace ch = false)
    (hcw : ∀ ch ∈ c, pyIsSpace ch = false)
    (hac : ',' ∉ a) (hbc : ',' ∉ b) (hcc : ',' ∉ c)
    (hab : a ≠ b) (hac2 : a ≠ c) :
    allHighUrls (processElem [] ⟨[], false, false, false, none,
        some (a ++ " 1x, ".data ++ b ++ " 2x, ".data ++ c)⟩) = [b] ∧
    allLowUrls (processElem [] ⟨[], false, false, false, none,
        some (a ++ " 1x, ".data ++ b ++ " 2x, ".data ++ c)⟩) = [c] ∧
    a ∉ allHighUrls (processElem [] ⟨[], false, false, false, none,
        some (a ++ " 1x, ".data ++ b ++ " 2x, ".data ++ c)⟩) ∧
    a ∉ allLowUrls (processElem [] ⟨[], false, false, false, none,
        some (a ++ " 1x, ".data ++ b ++ " 2x, ".data ++ c)⟩) := by
  have hsne : a ++ " 1x, ".data ++ b ++ " 2x, ".data ++ c ≠ [] := by
    obtain ⟨t, ht⟩ := http_shape a ha
    rw [ht]
    simp
  rw [processElem_srcset_only _ _ hsne,
    processSrcset_abc [] a b c ha hb hc haw hbw hcw hac hbc hcc]
  have hlow : addUrlLow ([] : ImgMap) (imgId c) c = [(imgId c, ⟨[], [c]⟩)] := rfl
  rw [hlow]
  by_cases hk : imgId c = imgId b
  · have hhigh : addUrlHigh [(imgId c, ⟨[], [c]⟩)] (imgId b) b =
        [(imgId c, ⟨[b], [c]⟩)] := by
      simp [addUrlHigh, hk, setAdd]
    rw [hhigh]
    refine ⟨by simp [allHighUrls], by simp [allLowUrls], ?_, ?_⟩
    · simp [allHighUrls, hab]
    · simp [allLowUrls, hac2]
  · have hhigh : addUrlHigh [(imgId c, ⟨[], [c]⟩)] (imgId b) b =
        [(imgId c, ⟨[], [c]⟩), (imgId b, ⟨[b], []⟩)] := by
      simp [addUrlHigh, hk, setAdd]
    rw [hhigh]
    refine ⟨by simp [allHighUrls], by simp [allLowUrls], ?_, ?_⟩
    · simp [allHighUrls, hab]
    · simp [allLowUrls, hac2]

theorem claim_C1_srcset_classification_witness :
    allHighUrls (processElem [] ⟨[], false, false, false, none,
        some ("http://h/a.png".data ++ " 1x, ".data ++ "http://h/b.png".data ++
          " 2x, ".data ++ "http://h/c.png".data)⟩) = ["http://h/b.png".data] ∧
    allLowUrls (processElem [] ⟨[], false, false, false, none,
        some ("http://h/a.png".data ++ " 1x, ".data ++ "http://h/b.png".data ++
          " 2x, ".data ++ "http://h/c.png".data)⟩) = ["http://h/c.png".data] ∧
    "http://h/a.png".data ∉ allHighUrls (processElem [] ⟨[], false, false, false, none,
        some ("http://h/a.png".data ++ " 1x, ".data ++ "http://h/b.png".data ++
          " 2x, ".data ++ "http://h/c.png".data)⟩) ∧
    "http://h/a.png".data ∉ allLowUrls (processElem [] ⟨[], false, false, false, none,
        some ("http://h/a.png".data ++ " 1x, ".data ++ "http://h/b.png".data ++
          " 2x, ".data ++ "http://h/c.png".data)⟩) :=
  claim_C1_srcset_classification "http://h/a.png".data "http://h/b.png".data
    "http://h/c.png".data (by decide) (by decide) (by decide) (by decide)
    (by decide) (by decide) (by decide) (by decide) (by decide) (by decide)
    (by decide)

/-- C6 (amended): a URL is not always confined to one tier set of its
identifier: an element whose srcset lists the same URL both without a
density and as the highest-density entry puts that URL into both the high
and the low set of its identifier. -/
theorem claim_C6_both_tiers_possible (u : Str)
    (hu : startsWithHttp u = true)
    (hws : ∀ ch ∈ u, pyIsSpace ch = false)
    (hcm : ',' ∉ u) :
    processElem [] ⟨[], false, false, false, none,
        some (u ++ ", ".data ++ u ++ " 2x".data)⟩ = [(imgId u, ⟨[u], [u]⟩)] ∧
    u ∈ mapHigh (processElem [] ⟨[], false, false, false, none,
        some (u ++ ", ".data ++ u ++ " 2x".data)⟩) (imgId u) ∧
    u ∈ mapLow (processElem [] ⟨[], false, false, false, none,
        some (u ++ ", ".data ++ u ++ " 2x".data)⟩) (imgId u) := by
  have hsne : u ++ ", ".data ++ u ++ " 2x".data ≠ [] := by
    obtain ⟨t, ht⟩ := http_shape u hu
    rw [ht]
    simp
  rw [processElem_srcset_only _ _ hsne, processSrcset_dup [] u hu hws hcm]
  have hlow : addUrlLow ([] : ImgMap) (imgId u) u = [(imgId u, ⟨[], [u]⟩)] := rfl
  rw [hlow]
  have hhigh : addUrlHigh [(imgId u, ⟨[], [u]⟩)] (imgId u) u =
      [(imgId u, ⟨[u], [u]⟩)] := by
    simp [addUrlHigh, setAdd]
  rw [hhigh]
  refine ⟨rfl, ?_, ?_⟩
  · simp [mapHigh]
  · simp [mapLow]

theorem claim_C6_both_tiers_possible_witness :
    processElem [] ⟨[], false, false, false, none,
        some ("http://h/u".data ++ ", ".data ++ "http://h/u".data ++ " 2x".data)⟩ =
      [(imgId "http://h/u".data, ⟨["http://h/u".data], ["http://h/u".data]⟩)] ∧
    "http://h/u".data ∈ mapHigh (processElem [] ⟨[], false, false, false, none,
        some ("http://h/u".data ++ ", ".data ++ "http://h/u".data ++ " 2x".data)⟩)
      (imgId "http://h/u".data) ∧
    "http://h/u".data ∈ mapLow (processElem [] ⟨[], false, false, false, none,
        some ("http://h/u".data ++ ", ".data ++ "http://h/u".data ++ " 2x".data)⟩)
      (imgId "http://h/u".data) :=
  claim_C6_both_tiers_possible "http://h/u".data (by decide) (by decide) (by decide)

/-- C6 (counterexample): after a collector run over a page with one
element whose srcset lists `http://h/u` both bare and with density 2x,
the URL `http://h/u` is a member of both the high set and the low set of
its identifier, refuting the claimed at-most-one-tier invariant. -/
theorem claim_C6_counterexample :
    "http://h/u".data ∈ mapHigh ((scrollAndCollect obsC6 0 1).getD [])
        (imgId "http://h/u".data) ∧
    "http://h/u".data ∈ mapLow ((scrollAndCollect obsC6 0 1).getD [])
        (imgId "http://h/u".data) := by
  have hrun : scrollAndCollect obsC6 0 1 = some (processElem [] elemC6) := by
    have h1 : collectRun obsC6 (0 + 1) 0 0 [] = some (processIter [] (obsC6 0)) :=
      collectRun_marker_first obsC6 0 [] 0 rfl
    have h2 : processIter [] (obsC6 0) = processElem [] elemC6 := by
      simp [processIter, obsC6]
    unfold scrollAndCollect
    rw [show (1 : Nat) = 0 + 1 from rfl, h1, h2]
  have helemEq : elemC6 = ⟨[], false, false, false, none,
      some ("http://h/u".data ++ ", ".data ++ "http://h/u".data ++ " 2x".data)⟩ := by
    have : ("http://h/u, http://h/u 2x".data : Str) =
        "http://h/u".data ++ ", ".data ++ "http://h/u".data ++ " 2x".data := by decide
    rw [elemC6, this]
  have helem : processElem [] elemC6 =
      [(imgId "http://h/u".data, ⟨["http://h/u".data], ["http://h/u".data]⟩)] := by
    rw [helemEq, processElem_srcset_only _ _ (by decide),
      processSrcset_dup [] "http://h/u".data (by decide)
        (by decide) (by decide)]
    have hlow : addUrlLow ([] : ImgMap) (imgId "http://h/u".data) "http://h/u".data =
        [(imgId "http://h/u".data, ⟨[], ["http://h/u".data]⟩)] := rfl
    rw [hlow]
    simp [addUrlHigh, setAdd]
  rw [hrun]
  simp only [Option.getD_some, helem]
  constructor
  · simp [mapHigh]
  · simp [mapLow]

/-! ## Downloader lemmas -/

theorem combineR_assoc (r1 r2 r3 : DlResult) :
    combineR (combineR r1 r2) r3 = combineR r1 (combineR r2 r3) := by
  simp [combineR, List.append_assoc, Nat.add_assoc]

theorem combineR_emptyR_left (r : DlResult) : combineR emptyR r = r := by
  cases r
  simp [combineR, emptyR]

theorem combineR_emptyR_right (r : DlResult) : combineR r emptyR = r := by
  cases r
  simp [combineR, emptyR]

theorem foldr_combineR (l : List DlResult) (r : DlResult) :
    l.foldr combineR r = combineR (combineRs l) r := by
  induction l with
  | nil => simp [combineRs, combineR_emptyR_left]
  | cons x xs ih =>
    simp only [List.foldr_cons, ih, combineRs]
    rw [← combineR_assoc]

theorem combineRs_append (l1 l2 : List DlResult) :
    combineRs (l1 ++ l2) = combineR (combineRs l1) (combineRs l2) := by
  unfold combineRs
  rw [List.foldr_append, foldr_combineR]
  rfl

theorem downloadRun_append (m1 m2 : ImgMap) (dir pref : Str)
    (fetch : Str → Option (List Nat)) :
    downloadRun (m1 ++ m2) dir pref fetch =
      combineR (downloadRun m1 dir pref fetch) (downloadRun m2 dir pref fetch) := by
  simp [downloadRun, List.map_append, combineRs_append]

theorem hexOfBytes_length (bs : List Nat) : (hexOfBytes bs).length = 2 * bs.length := by
  induction bs with
  | nil => rfl
  | cons x xs ih =>
    show (hexChar (x / 16) :: hexChar (x % 16) :: hexOfBytes xs).length = 2 * (x :: xs).length
    simp [ih]
    ring

theorem md5Digest_length (s : Str) : (md5Digest s).length = 16 := by
  simp [md5Digest, wordBytes]

theorem md5hex_length (s : Str) : (md5hex s).length = 32 := by
  simp [md5hex, hexOfBytes_length, md5Digest_length]

theorem sanitize_high_form (u : Str) :
    sanitizeFilename u (some "high".data) =
      md5hex u ++ '_' :: 'h' :: 'i' :: 'g' :: 'h' ::
        (if splitextExt (urlparsePath u) = [] ∨ 5 < (splitextExt (urlparsePath u)).length
         then ".jpg".data else splitextExt (urlparsePath u)) := by
  simp only [sanitizeFilename]
  rw [if_neg (by decide : ¬ (("high".data : Str) = []))]
  rw [List.append_assoc]
  rfl

theorem sanitize_low_form (u : Str) :
    sanitizeFilename u (some "low".data) =
      md5hex u ++ '_' :: 'l' :: 'o' :: 'w' ::
        (if splitextExt (urlparsePath u) = [] ∨ 5 < (splitextExt (urlparsePath u)).length
         then ".jpg".data else splitextExt (urlparsePath u)) := by
  simp only [sanitizeFilename]
  rw [if_neg (by decide : ¬ (("low".data : Str) = []))]
  rw [List.append_assoc]
  rfl

theorem sanitize_high_low_ne (u1 u2 : Str) :
    sanitizeFilename u1 (some "high".data) ≠ sanitizeFilename u2 (some "low".data) := by
  intro heq
  have h1 : (sanitizeFilename u1 (some "high".data))[33]? = some 'h' := by
    rw [sanitize_high_form]
    rw [List.getElem?_append_right (by rw [md5hex_length]; omega)]
    rw [md5hex_length]
    rfl
  have h2 : (sanitizeFilename u2 (some "low".data))[33]? = some 'l' := by
    rw [sanitize_low_form]
    rw [List.getElem?_append_right (by rw [md5hex_length]; omega)]
    rw [md5hex_length]
    rfl
  rw [heq, h2] at h1
  simp at h1

/-- C3: under policy `all`, an identifier with both tier sets non-empty
whose two picked fetches succeed yields exactly two written files (one
per tier), and the two filenames are distinct because each carries its
quality tag after the fixed-width MD5 digest. -/
theorem claim_C3_all_policy_two_files (dir idStr u1 u2 : Str) (hs ls : List Str)
    (fetch : Str → Option (List Nat)) (b1 b2 : List Nat)
    (h1 : fetch u1 = some b1) (h2 : fetch u2 = some b2) :
    (perId dir "all".data fetch (idStr, ⟨u1 :: hs, u2 :: ls⟩)).writes =
      [(joinPath dir (sanitizeFilename u1 (some "high".data)), b1),
       (joinPath dir (sanitizeFilename u2 (some "low".data)), b2)] ∧
    (perId dir "all".data fetch (idStr, ⟨u1 :: hs, u2 :: ls⟩)).writes.length = 2 ∧
    (perId dir "all".data fetch (idStr, ⟨u1 :: hs, u2 :: ls⟩)).downloaded = 2 ∧
    sanitizeFilename u1 (some "high".data) ≠ sanitizeFilename u2 (some "low".data) := by
  have hne1 : ("all".data : Str) ≠ "high-only".data := by decide
  have hne2 : ("all".data : Str) ≠ "prioritize-high".data := by decide
  have hperId : perId dir "all".data fetch (idStr, ⟨u1 :: hs, u2 :: ls⟩) =
      ⟨[(joinPath dir (sanitizeFilename u1 (some "high".data)), b1),
        (joinPath dir (sanitizeFilename u2 (some "low".data)), b2)],
       [u1, u2],
       [LogEntry.downloaded u1
          (joinPath dir (sanitizeFilename u1 (some "high".data))) "high".data,
        LogEntry.downloaded u2
          (joinPath dir (sanitizeFilename u2 (some "low".data))) "low".data],
       2, 0⟩ := by
    simp [perId, selectUrls, hne1, hne2, fetchOne, h1, h2, combineRs, combineR, emptyR]
  refine ⟨by simp [hperId], by simp [hperId], by simp [hperId],
    sanitize_high_low_ne u1 u2⟩

theorem claim_C3_all_policy_two_files_witness :
    fetchSome "http://x/a.png".data = some [0] ∧
    (perId "images".data "all".data fetchSome
        ("id1".data, ⟨["http://x/a.png".data], ["http://x/b.png".data]⟩)).writes =
      [(joinPath "images".data (sanitizeFilename "http://x/a.png".data (some "high".data)), [0]),
       (joinPath "images".data (sanitizeFilename "http://x/b.png".data (some "low".data)), [0])] ∧
    (perId "images".data "all".data fetchSome
        ("id1".data, ⟨["http://x/a.png".data], ["http://x/b.png".data]⟩)).writes.length = 2 ∧
    (perId "images".data "all".data fetchSome
        ("id1".data, ⟨["http://x/a.png".data], ["http://x/b.png".data]⟩)).downloaded = 2 ∧
    sanitizeFilename "http://x/a.png".data (some "high".data) ≠
      sanitizeFilename "http://x/b.png".data (some "low".data) :=
  ⟨rfl,
    claim_C3_all_policy_two_files "images".data "id1".data "http://x/a.png".data
      "http://x/b.png".data [] [] fetchSome [0] [0] rfl rfl⟩

/-- C8 (amended): a failing HTTP GET for a selected URL is caught and
logged, writes no file, is attempted exactly once (no retry), and leaves
the processing of all other selected URLs and identifiers unchanged; the
failure is reflected in neither the downloaded nor the skipped counter
(no failure counter exists). -/
theorem claim_C8_failure_isolated (pre post : ImgMap) (idStr u l : Str)
    (hs ls : List Str) (dir : Str) (fetch : Str → Option (List Nat)) (b : List Nat)
    (hu : fetch u = none) (hl : fetch l = some b) :
    downloadRun (pre ++ (idStr, ⟨u :: hs, l :: ls⟩) :: post) dir "all".data fetch =
      combineR (downloadRun pre dir "all".data fetch)
        (combineR
          ⟨[(joinPath dir (sanitizeFilename l (some "low".data)), b)], [u, l],
            [LogEntry.failed u,
             LogEntry.downloaded l
               (joinPath dir (sanitizeFilename l (some "low".data))) "low".data],
            1, 0⟩
          (downloadRun post dir "all".data fetch)) := by
  have hne1 : ("all".data : Str) ≠ "high-only".data := by decide
  have hne2 : ("all".data : Str) ≠ "prioritize-high".data := by decide
  have hmid : (idStr, (⟨u :: hs, l :: ls⟩ : ImgUrls)) :: post =
      [(idStr, (⟨u :: hs, l :: ls⟩ : ImgUrls))] ++ post := rfl
  rw [hmid, downloadRun_append, downloadRun_append]
  have hone : downloadRun [(idStr, (⟨u :: hs, l :: ls⟩ : ImgUrls))] dir "all".data fetch =
      perId dir "all".data fetch (idStr, ⟨u :: hs, l :: ls⟩) := by
    simp [downloadRun, combineRs, combineR_emptyR_right]
  have hperId : perId dir "all".data fetch (idStr, ⟨u :: hs, l :: ls⟩) =
      ⟨[(joinPath dir (sanitizeFilename l (some "low".data)), b)], [u, l],
        [LogEntry.failed u,
         LogEntry.downloaded l
           (joinPath dir (sanitizeFilename l (some "low".data))) "low".data],
        1, 0⟩ := by
    simp [perId, selectUrls, hne1, hne2, fetchOne, hu, hl, combineRs, combineR, emptyR]
  rw [hone, hperId]

theorem claim_C8_failure_isolated_witness :
    fetchC8 "http://h/fail.png".data = none ∧
    fetchC8 "http://h/low.png".data = some [7] ∧
    downloadRun ([] ++ ("id1".data,
        (⟨["http://h/fail.png".data], ["http://h/low.png".data]⟩ : ImgUrls)) :: [])
        "out".data "all".data fetchC8 =
      combineR (downloadRun [] "out".data "all".data fetchC8)
        (combineR
          ⟨[(joinPath "out".data
              (sanitizeFilename "http://h/low.png".data (some "low".data)), [7])],
            ["http://h/fail.png".data, "http://h/low.png".data],
            [LogEntry.failed "http://h/fail.png".data,
             LogEntry.downloaded "http://h/low.png".data
               (joinPath "out".data
                 (sanitizeFilename "http://h/low.png".data (some "low".data)))
               "low".data],
            1, 0⟩
          (downloadRun [] "out".data "all".data fetchC8)) :=
  ⟨by decide, by decide,
    claim_C8_failure_isolated [] [] "id1".data "http://h/fail.png".data
      "http://h/low.png".data [] [] "out".data fetchC8 [7] (by decide) (by decide)⟩

/-- C8 (counterexample): in a run whose only identifier has one high URL
whose fetch fails under the `high-only` policy, the failure is logged but
no counter reflects it: the summary counts are 0 downloaded and 0
skipped, and nothing is written — there is no failed counter to
increment, refuting the "counted as failed" part of the claim. -/
theorem claim_C8_counterexample :
    (downloadRun [("id1".data, ⟨["http://h/a.png".data], []⟩)] "out".data
        "high-only".data fetchFail).log = [LogEntry.failed "http://h/a.png".data] ∧
    (downloadRun [("id1".data, ⟨["http://h/a.png".data], []⟩)] "out".data
        "high-only".data fetchFail).downloaded = 0 ∧
    (downloadRun [("id1".data, ⟨["http://h/a.png".data], []⟩)] "out".data
        "high-only".data fetchFail).skipped = 0 ∧
    (downloadRun [("id1".data, ⟨["http://h/a.png".data], []⟩)] "out".data
        "high-only".data fetchFail).writes = [] := by
  refine ⟨?_, ?_, ?_, ?_⟩ <;> decide

/-! ## Scroll-loop lemmas -/

theorem collectRun_none_of_no_stop (obs : Nat → IterObs) (h0 : Nat)
    (h : ∀ i, ¬ stopsAt obs h0 i) :
    ∀ fuel i m, collectRun obs fuel i (prevHeight obs h0 i) m = none := by
  intro fuel
  induction fuel with
  | zero =>
    intro i m
    rfl
  | succ f ih =>
    intro i m
    have hni := h i
    unfold stopsAt at hni
    push_neg at hni
    obtain ⟨hm, hh⟩ := hni
    simp only [collectRun]
    rw [if_neg hm, if_neg hh]
    exact ih (i + 1) (processIter m (obs i))

theorem collectRun_stops_at (obs : Nat → IterObs) (h0 n : Nat)
    (hstop : stopsAt obs h0 n) (hmin : ∀ m, m < n → ¬ stopsAt obs h0 m) :
    ∀ fuel i m, i ≤ n → n - i < fuel →
      collectRun obs fuel i (prevHeight obs h0 i) m =
        some (collectFrom obs m i (n - i + 1)) := by
  intro fuel
  induction fuel with
  | zero =>
    intro i m hi hf
    omega
  | succ f ih =>
    intro i m hi hf
    by_cases hin : i = n
    · subst hin
      have hres : collectRun obs (f + 1) i (prevHeight obs h0 i) m =
          some (processIter m (obs i)) := by
        simp only [collectRun]
        by_cases hm2 : (obs i).marker = true
        · rw [if_pos hm2]
        · rcases hstop with hm | hh
          · exact absurd hm hm2
          · rw [if_neg hm2, if_pos hh]
      rw [hres, Nat.sub_self]
      simp [collectFrom]
    · have hlt : i < n := lt_of_le_of_ne hi hin
      have hns := hmin i hlt
      unfold stopsAt at hns
      push_neg at hns
      obtain ⟨hm, hh⟩ := hns
      simp only [collectRun]
      rw [if_neg hm, if_neg hh]
      have hph : prevHeight obs h0 (i + 1) = (obs i).height := rfl
      have hrec := ih (i + 1) (processIter m (obs i)) (by omega) (by omega)
      rw [hph] at hrec
      rw [hrec]
      rw [show n - i + 1 = (n - (i + 1) + 1) + 1 from by omega]
      simp [collectFrom]

/-- C7: the scroll loop stops exactly at the first iteration where either
the page-wide marker query finds the excluded section or the page height
equals the previous iteration's height, returning everything collected up
to and including that iteration; it has no iteration cap, so on a page
sequence where neither condition ever holds it runs forever (no fuel
bound makes it return). -/
theorem claim_C7_scroll_termination (obs : Nat → IterObs) (h0 : Nat) :
    ((∀ i, ¬ stopsAt obs h0 i) → ∀ fuel, scrollAndCollect obs h0 fuel = none) ∧
    (∀ n, stopsAt obs h0 n → (∀ m, m < n → ¬ stopsAt obs h0 m) →
      ∀ fuel, n < fuel →
        scrollAndCollect obs h0 fuel = some (collectFrom obs [] 0 (n + 1))) := by
  constructor
  · intro h fuel
    have hres := collectRun_none_of_no_stop obs h0 h fuel 0 []
    unfold scrollAndCollect
    exact hres
  · intro n hstop hmin fuel hf
    have hres := collectRun_stops_at obs h0 n hstop hmin fuel 0 []
      (Nat.zero_le n) (by omega)
    simp only [Nat.sub_zero] at hres
    unfold scrollAndCollect
    exact hres

theorem claim_C7_scroll_termination_witness :
    scrollAndCollect obsNoStop 0 7 = none ∧
    scrollAndCollect obsStop 0 2 = some (collectFrom obsStop [] 0 2) :=
  ⟨(claim_C7_scroll_termination obsNoStop 0).1
      (by
        intro i
        cases i with
        | zero => simp [stopsAt, obsNoStop, prevHeight]
        | succ j => simp [stopsAt, obsNoStop, prevHeight]) 7,
    (claim_C7_scroll_termination obsStop 0).2 1
      (by simp [stopsAt, obsStop])
      (by
        intro m hm
        have hm0 : m = 0 := by omega
        subst hm0
        simp [stopsAt, obsStop, prevHeight]) 2 (by omega)⟩

end PinBoard
